import Mathlib

/-!
Verification of the user-activity simulator: a shallow embedding of the
simulation lifecycle manager and the batched ingestion/retrieval pipeline,
together with proofs of the specified properties.

Modelling conventions:
* Go `float64` values are modelled as rationals (`ℚ`); all arithmetic the
  retrieval path performs on them (comparison, clamping, multiplication by a
  list length, conversion to `int`) is exact over `ℚ`.
* Go's `int(x)` conversion truncates toward zero; `goTruncToInt` mirrors it.
* Go's `time.Time` is modelled as an integer timestamp (`ℤ`, nanoseconds);
  `time.Before` is `<` and sorting uses the induced `≤`.
* The persistence engine (unitdb) is an external collaborator: it is modelled
  as a key-indexed store of raw records.  A raw record either JSON-decodes to
  a `LocationData` or is corrupt; the JSON codec itself is external, so the
  decode outcome is carried by the record (`RawMsg`), and the encode outcome
  on the write path is a parameter (`marshal`), since over `ℚ` there are no
  NaN/Inf values that make `json.Marshal` fail.
* Goroutines and real time are not modelled; the session supervisor is
  modelled as a state machine whose transitions are the bodies of
  `handleStart` / `stopSimulationsInternal` executed atomically (they run
  under `activeSimulationsMutex` in the source).
-/

namespace UserActivitySim

/-- One recorded displacement sample (Go struct `LocationData`, fields
`DeltaX`, `DeltaY`, `Timestamp`). -/
structure LocationData where
  deltaX : ℚ
  deltaY : ℚ
  timestamp : ℤ
deriving DecidableEq, Repr

/-- A raw record held by the store: either a payload that JSON-decodes to a
`LocationData`, or a corrupt payload that fails `json.Unmarshal`. -/
inductive RawMsg where
  | valid (d : LocationData)
  | corrupt (payload : String)
deriving DecidableEq, Repr

/-- Outcome of `json.Unmarshal` on a stored record. -/
def decodeRaw : RawMsg → Option LocationData
  | .valid d => some d
  | .corrupt _ => none

/-- State of the database collaborator: whether `InitDB` has run, whether the
underlying `db.Get` call fails, and the records stored under each topic key. -/
structure DBState where
  initialized : Bool
  readError : Option String
  contents : String → List RawMsg

/-- `GetTopicForUser` from `database.go`:
`[]byte(fmt.Sprintf("user.%s.location", userID))`. -/
def GetTopicForUser (userID : String) : String :=
  "user." ++ userID ++ ".location"

/-- Timestamp order used by the retrieval sort (`sort.Slice` with the
comparator `Timestamp.Before`, whose induced sorted order is `≤`). -/
def tsLE (a b : LocationData) : Prop :=
  a.timestamp ≤ b.timestamp

instance : DecidableRel tsLE :=
  fun a b => inferInstanceAs (Decidable (a.timestamp ≤ b.timestamp))

instance : IsTotal LocationData tsLE :=
  ⟨fun a b => Int.le_total a.timestamp b.timestamp⟩

instance : IsTrans LocationData tsLE :=
  ⟨fun _ _ _ h₁ h₂ => le_trans h₁ h₂⟩

/-- `sort.Slice(locationDataList, …Timestamp.Before…)`: sorting the decoded
samples ascending by timestamp. -/
def sortByTimestamp (l : List LocationData) : List LocationData :=
  List.insertionSort tsLE l

/-- Go's `int(x)` conversion of a `float64`: truncation toward zero. -/
def goTruncToInt (q : ℚ) : ℤ :=
  if 0 ≤ q then ⌊q⌋ else ⌈q⌉

/-- Go slice expression `l[lo:hi]`: defined when `0 ≤ lo ≤ hi ≤ len(l)`,
otherwise it panics (modelled by `none`). -/
def goSlice {α : Type} (l : List α) (lo hi : ℤ) : Option (List α) :=
  if 0 ≤ lo ∧ lo ≤ hi ∧ hi ≤ (l.length : ℤ) then
    some ((l.drop lo.toNat).take (hi - lo).toNat)
  else none

/-- Result of `ReadLocationData`: a returned slice, a returned error, or a
runtime panic from an out-of-range slice expression. -/
inductive FetchOutcome where
  | ok (samples : List LocationData)
  | err (msg : String)
  | sliceOutOfRange (lo hi : ℤ) (len : ℕ)
deriving DecidableEq, Repr

/-- The final slice expression `locationDataList[startIndex:endIndex]`:
a slice when in range, a runtime panic otherwise. -/
def sliceResult (l : List LocationData) (lo hi : ℤ) : FetchOutcome :=
  match goSlice l lo hi with
  | some res => .ok res
  | none => .sliceOutOfRange lo hi l.length

/-- The windowing tail of `ReadLocationData` (from `totalEntries :=
len(locationDataList)` onward): clamp the percentages, compute the start and
end indices, clamp them, and slice. -/
def applyWindow (sorted : List LocationData) (minPercent maxPercent : ℚ) :
    FetchOutcome :=
  let totalEntries := sorted.length
  if totalEntries = 0 then .ok []
  else
    let minP := if minPercent < 0 then 0 else minPercent
    let maxP := if maxPercent > 1 then 1 else maxPercent
    let minP := if minP > maxP then maxP else minP
    let startIndex := goTruncToInt (minP * (totalEntries : ℚ))
    let endIndex := goTruncToInt (maxP * (totalEntries : ℚ))
    let startIndex := if startIndex < 0 then 0 else startIndex
    let endIndex := if endIndex > (totalEntries : ℤ) then (totalEntries : ℤ) else endIndex
    let startIndex := if startIndex > endIndex then endIndex else startIndex
    sliceResult sorted startIndex endIndex

/-- `ReadLocationData(userID, minPercent, maxPercent)` from `database.go`:
check the db handle, read all raw messages for the user's topic, decode each
record independently (skipping corrupt ones), sort by timestamp, and apply
the percentage window. -/
def ReadLocationData (db : DBState) (userID : String)
    (minPercent maxPercent : ℚ) : FetchOutcome :=
  if db.initialized = false then .err ("database not initialized")
  else
    match db.readError with
    | some e =>
        .err ("failed to get data for user " ++ userID ++ " from DB: " ++ e)
    | none =>
      let rawMessages := db.contents (GetTopicForUser userID)
      if rawMessages.length = 0 then .ok []
      else applyWindow (sortByTimestamp (rawMessages.filterMap decodeRaw))
        minPercent maxPercent

/-- `WriteLocationData(userID, dataPoints)` from `database.go`: check the db
handle, then inside a store batch marshal each point (a marshal failure is
logged and the point skipped) and put it (a put failure is logged and the
point dropped); the batch callback always returns nil, so the call reports
success.  `marshal` is the external JSON encoder's outcome and `putEntryOk`
the engine's per-record `PutEntry` outcome. -/
def WriteLocationData (db : DBState) (marshal : LocationData → Option RawMsg)
    (putEntryOk : RawMsg → Bool) (userID : String)
    (dataPoints : List LocationData) : Except String DBState :=
  if db.initialized = false then .error ("database not initialized")
  else
    .ok { db with
      contents := fun k =>
        if k = GetTopicForUser userID then
          db.contents k ++ ((dataPoints.filterMap marshal).filter putEntryOk)
        else db.contents k }

/-- All samples stored for a user that decode successfully. -/
def decodedFor (db : DBState) (u : String) : List LocationData :=
  (db.contents (GetTopicForUser u)).filterMap decodeRaw

/-- The specified window: the half-open slice
`[⌊minP·n⌋, ⌊maxP·n⌋)` of the timestamp-sorted decoded samples. -/
def windowSlice (l : List LocationData) (minP maxP : ℚ) : List LocationData :=
  ((sortByTimestamp l).drop (⌊minP * (l.length : ℚ)⌋).toNat).take
    ((⌊maxP * (l.length : ℚ)⌋).toNat - (⌊minP * (l.length : ℚ)⌋).toNat)

/-- Store used by concrete witnesses: two decodable samples for `"u1"`,
stored in non-chronological order. -/
def dbWitness : DBState :=
  { initialized := true
    readError := none
    contents := fun k =>
      if k = GetTopicForUser "u1" then
        [RawMsg.valid ⟨5, 6, 1⟩, RawMsg.valid ⟨3, 4, 0⟩]
      else [] }

/-- Store used by the C7 witness: a decodable record, a corrupt record, and
another decodable record under `"u2"`. -/
def dbMixed : DBState :=
  { initialized := true
    readError := none
    contents := fun k =>
      if k = GetTopicForUser "u2" then
        [RawMsg.valid ⟨1, 1, 7⟩, RawMsg.corrupt "garbage", RawMsg.valid ⟨2, 2, 4⟩]
      else [] }

/-- Store with a single decodable sample for `"u1"`, used to exhibit the
out-of-range slice panic. -/
def dbOne : DBState :=
  { initialized := true
    readError := none
    contents := fun k =>
      if k = GetTopicForUser "u1" then [RawMsg.valid ⟨0, 0, 0⟩] else [] }

/-- JSON encoder outcome in which every sample marshals to a decodable
payload. -/
def marshalJSON : LocationData → Option RawMsg :=
  fun d => some (RawMsg.valid d)

/-- `PutEntry` outcome in which every put succeeds. -/
def putAlways : RawMsg → Bool := fun _ => true

/-- The store obtained from `dbWitness` by the witness write below. -/
def dbWitnessWritten : DBState :=
  { dbWitness with contents := fun k =>
      if k = GetTopicForUser "u1" then
        dbWitness.contents k ++
          ((([⟨9, 9, 2⟩] : List LocationData).filterMap marshalJSON).filter putAlways)
      else dbWitness.contents k }

/-! ### Generator (movement simulation) -/

/-- `maxDistancePerStep = 0.004` from the simulation constants. -/
noncomputable def maxDistancePerStep : ℝ := 0.004

/-- A generated sample before storage; `deltaX`, `deltaY` are the
`float64` displacements (modelled as reals because they are produced by
`math.Cos` / `math.Sin`). -/
structure GenSample where
  deltaX : ℝ
  deltaY : ℝ
  timestamp : ℤ

/-- `generateMovement(rng)`: `u1`, `u2` are the two `rng.Float64()` draws
(each in `[0,1)`); the angle is `u1 * 2 * π`, the magnitude
`u2 * maxDistancePerStep`, and the displacement the polar decomposition. -/
noncomputable def generateMovement (u1 u2 : ℝ) : ℝ × ℝ :=
  let angle := u1 * 2 * Real.pi
  let magnitude := u2 * maxDistancePerStep
  (magnitude * Real.cos angle, magnitude * Real.sin angle)

/-- The sample-generation branch of `SimulateUserMovement`'s loop: build the
data point from `generateMovement`, stamp it with the current time, and
append it to the goroutine's buffer. -/
noncomputable def generateStep (now : ℤ) (u1 u2 : ℝ)
    (dataBuffer : List GenSample) : List GenSample :=
  let m := generateMovement u1 u2
  dataBuffer ++ [{ deltaX := m.1, deltaY := m.2, timestamp := now }]

/-! ### Session supervisor (`handleStart` / `stopSimulationsInternal`)

The supervisor state mirrors the package-level variables guarded by
`activeSimulationsMutex`: `table` is the `activeSimulations` map (userID to
the identifier of the cancellable context handed to that user's
`simulationControl.cancelFunc`), `currentUsers` the `currentUsers` slice.
`gens` records every goroutine spawned by `go SimulateUserMovement(userCtx,
userID)` together with its context identifier, and `cancelled` the
identifiers of contexts whose cancel function has been invoked; a spawned
goroutine is live until its context is cancelled.  `nextId` supplies fresh
context identifiers.  Real time (the 30 s deadline) is not modelled. -/

structure SimState where
  table : List (String × ℕ)
  gens : List (ℕ × String)
  cancelled : List ℕ
  nextId : ℕ
  currentUsers : List String
deriving DecidableEq, Repr

/-- Go map assignment `m[k] = v`: overwrite when the key is present,
append otherwise. -/
def mapInsert (m : List (String × ℕ)) (k : String) (v : ℕ) :
    List (String × ℕ) :=
  if m.any (fun e => e.1 = k) then
    m.map (fun e => if e.1 = k then (e.1, v) else e)
  else m ++ [(k, v)]

/-- `stopSimulationsInternal`: early-return when no simulation is active;
otherwise call every registered `cancelFunc`, delete every map entry, and
clear `currentUsers` (the `currentSimulationCtx` check in the source has an
empty body and does nothing). -/
def stopSimulationsInternal (s : SimState) : SimState :=
  if s.table.isEmpty then s
  else { s with
    table := []
    cancelled := s.cancelled ++ s.table.map Prod.snd
    currentUsers := [] }

/-- One iteration of `handleStart`'s spawn loop: skip the empty user id,
otherwise derive a fresh cancellable context, record its handle in the map,
and spawn the generator goroutine. -/
def spawnOne (st : SimState) (uid : String) : SimState :=
  if uid = "" then st
  else { st with
    table := mapInsert st.table uid st.nextId
    gens := st.gens ++ [(st.nextId, uid)]
    nextId := st.nextId + 1 }

/-- `handleStart` (after request decoding): stop any previous session, reject
an empty `user_ids` list, then record `currentUsers` and spawn one generator
per non-empty user id. -/
def handleStart (s : SimState) (userIDs : List String) :
    Except String SimState :=
  let s1 := stopSimulationsInternal s
  if userIDs.isEmpty then .error ("User ID list cannot be empty")
  else .ok (userIDs.foldl spawnOne { s1 with currentUsers := userIDs })

/-- `handleStop`: unconditionally stop and answer 200 OK (`true`). -/
def handleStop (s : SimState) : SimState × Bool :=
  (stopSimulationsInternal s, true)

/-- The goroutines still running: spawned and not yet cancelled. -/
def liveOf (s : SimState) : List (ℕ × String) :=
  s.gens.filter (fun g => decide (g.1 ∉ s.cancelled))

/-- The supervisor invariant: context identifiers are bounded by the fresh
counter, the map has at most one entry per user id, and the live goroutines
correspond one-to-one with the map's entries (the table and the set of
running generators are in lockstep). -/
def Inv (s : SimState) : Prop :=
  (∀ g ∈ s.gens, g.1 < s.nextId) ∧
  (∀ e ∈ s.table, e.2 < s.nextId) ∧
  (∀ c ∈ s.cancelled, c < s.nextId) ∧
  (s.table.map Prod.fst).Nodup ∧
  (liveOf s).Perm (s.table.map (fun e => (e.2, e.1)))

instance (s : SimState) : Decidable (Inv s) := by
  unfold Inv
  infer_instance

/-- The empty supervisor state (process start: no map entries, no goroutines,
nothing cancelled). -/
def initState : SimState :=
  { table := [], gens := [], cancelled := [], nextId := 0, currentUsers := [] }

/-! ### Windowing arithmetic -/

lemma goTruncToInt_of_nonneg {q : ℚ} (h : 0 ≤ q) : goTruncToInt q = ⌊q⌋ :=
  if_pos h

lemma floor_window_nonneg {minP : ℚ} (n : ℕ) (h0 : 0 ≤ minP) :
    0 ≤ ⌊minP * (n : ℚ)⌋ :=
  Int.floor_nonneg.mpr (mul_nonneg h0 (by positivity))

lemma floor_window_mono {minP maxP : ℚ} (n : ℕ) (h : minP ≤ maxP) :
    ⌊minP * (n : ℚ)⌋ ≤ ⌊maxP * (n : ℚ)⌋ :=
  Int.floor_le_floor (mul_le_mul_of_nonneg_right h (by positivity))

lemma floor_window_le_len {maxP : ℚ} (n : ℕ) (h2 : maxP ≤ 1) :
    ⌊maxP * (n : ℚ)⌋ ≤ (n : ℤ) := by
  have h : maxP * (n : ℚ) ≤ (n : ℚ) :=
    mul_le_of_le_one_left (by positivity) h2
  simpa using Int.floor_le_floor h

/-- With in-range fractions every clamp in the windowing code is a no-op and
the slice expression is in range, so `applyWindow` returns the half-open
floor-index window. -/
lemma applyWindow_ok (l : List LocationData) (minP maxP : ℚ)
    (h0 : 0 ≤ minP) (h1 : minP ≤ maxP) (h2 : maxP ≤ 1) :
    applyWindow l minP maxP =
      .ok ((l.drop (⌊minP * (l.length : ℚ)⌋).toNat).take
        ((⌊maxP * (l.length : ℚ)⌋).toNat - (⌊minP * (l.length : ℚ)⌋).toNat)) := by
  have hs0 : 0 ≤ ⌊minP * (l.length : ℚ)⌋ := floor_window_nonneg _ h0
  have hse : ⌊minP * (l.length : ℚ)⌋ ≤ ⌊maxP * (l.length : ℚ)⌋ :=
    floor_window_mono _ h1
  have hel : ⌊maxP * (l.length : ℚ)⌋ ≤ (l.length : ℤ) := floor_window_le_len _ h2
  by_cases hn : l.length = 0
  · rw [List.length_eq_zero.mp hn]
    simp [applyWindow]
  · unfold applyWindow
    simp only [if_neg hn, if_neg (not_lt.mpr h0), if_neg (not_lt.mpr h2),
      if_neg (not_lt.mpr h1),
      goTruncToInt_of_nonneg (mul_nonneg h0 (by positivity : (0:ℚ) ≤ (l.length : ℚ))),
      goTruncToInt_of_nonneg
        (le_trans (mul_nonneg h0 (by positivity : (0:ℚ) ≤ (l.length : ℚ)))
          (mul_le_mul_of_nonneg_right h1 (by positivity))),
      if_neg (not_lt.mpr hs0), if_neg (not_lt.mpr hel), if_neg (not_lt.mpr hse)]
    unfold sliceResult goSlice
    rw [if_pos ⟨hs0, hse, hel⟩]
    have ht : (⌊maxP * (l.length : ℚ)⌋ - ⌊minP * (l.length : ℚ)⌋).toNat =
        (⌊maxP * (l.length : ℚ)⌋).toNat - (⌊minP * (l.length : ℚ)⌋).toNat := by
      omega
    rw [ht]

lemma sortByTimestamp_length (l : List LocationData) :
    (sortByTimestamp l).length = l.length :=
  (List.perm_insertionSort tsLE l).length_eq

lemma sortByTimestamp_perm (l : List LocationData) :
    (sortByTimestamp l).Perm l :=
  List.perm_insertionSort tsLE l

lemma sortByTimestamp_sorted (l : List LocationData) :
    List.Sorted tsLE (sortByTimestamp l) :=
  List.sorted_insertionSort tsLE l

/-- On an initialized store whose read succeeds, with in-range fractions,
`ReadLocationData` returns exactly the floor-index window of the
timestamp-sorted decoded samples. -/
lemma fetch_ok (db : DBState) (u : String) (minP maxP : ℚ)
    (hinit : db.initialized = true) (hre : db.readError = none)
    (h0 : 0 ≤ minP) (h1 : minP ≤ maxP) (h2 : maxP ≤ 1) :
    ReadLocationData db u minP maxP =
      .ok (windowSlice (decodedFor db u) minP maxP) := by
  unfold ReadLocationData
  rw [hinit, hre]
  simp only [Bool.true_eq_false, if_false]
  by_cases hr : (db.contents (GetTopicForUser u)).length = 0
  · rw [if_pos hr]
    simp [windowSlice, decodedFor, sortByTimestamp, List.length_eq_zero.mp hr]
  · rw [if_neg hr, applyWindow_ok _ _ _ h0 h1 h2]
    rw [sortByTimestamp_length]
    rfl

lemma windowSlice_sorted (l : List LocationData) (minP maxP : ℚ) :
    List.Sorted tsLE (windowSlice l minP maxP) :=
  List.Pairwise.sublist
    ((List.take_sublist _ _).trans (List.drop_sublist _ _))
    (sortByTimestamp_sorted l)

lemma windowSlice_length (l : List LocationData) (minP maxP : ℚ)
    (h0 : 0 ≤ minP) (h1 : minP ≤ maxP) (h2 : maxP ≤ 1) :
    (windowSlice l minP maxP).length =
      (⌊maxP * (l.length : ℚ)⌋).toNat - (⌊minP * (l.length : ℚ)⌋).toNat := by
  unfold windowSlice
  rw [List.length_take, List.length_drop, sortByTimestamp_length]
  have hs0 := floor_window_nonneg l.length h0
  have hse := floor_window_mono l.length h1
  have hel := floor_window_le_len l.length h2
  omega

lemma sliceResult_ne_err (l : List LocationData) (lo hi : ℤ) (msg : String) :
    sliceResult l lo hi ≠ .err msg := by
  intro h
  unfold sliceResult at h
  split at h <;> simp at h

lemma applyWindow_ne_err (l : List LocationData) (minP maxP : ℚ)
    (msg : String) : applyWindow l minP maxP ≠ .err msg := by
  intro h
  unfold applyWindow at h
  by_cases hn : l.length = 0
  · rw [if_pos hn] at h
    simp at h
  · rw [if_neg hn] at h
    exact sliceResult_ne_err _ _ _ _ h

/-- Claim C1: with the store initialized and readable and fractions
`0 ≤ minP ≤ maxP ≤ 1`, Fetch returns the contiguous half-open slice
`[⌊minP·n⌋, ⌊maxP·n⌋)` of the decoded samples sorted ascending by
timestamp — hence exactly `⌊maxP·n⌋ − ⌊minP·n⌋` samples, non-decreasing by
timestamp; `maxP = 1` includes the last element, `minP = maxP` yields an
empty result, and `n = 0` yields an empty sequence rather than an error. -/
theorem fetch_returns_floor_window (db : DBState) (u : String) (minP maxP : ℚ)
    (hinit : db.initialized = true) (hre : db.readError = none)
    (h0 : 0 ≤ minP) (h1 : minP ≤ maxP) (h2 : maxP ≤ 1) :
    ReadLocationData db u minP maxP =
      .ok (windowSlice (decodedFor db u) minP maxP) ∧
    windowSlice (decodedFor db u) minP maxP =
      ((sortByTimestamp (decodedFor db u)).drop
          (⌊minP * ((decodedFor db u).length : ℚ)⌋).toNat).take
        ((⌊maxP * ((decodedFor db u).length : ℚ)⌋).toNat -
          (⌊minP * ((decodedFor db u).length : ℚ)⌋).toNat) ∧
    (windowSlice (decodedFor db u) minP maxP).length =
      (⌊maxP * ((decodedFor db u).length : ℚ)⌋).toNat -
        (⌊minP * ((decodedFor db u).length : ℚ)⌋).toNat ∧
    List.Sorted tsLE (windowSlice (decodedFor db u) minP maxP) ∧
    List.Sorted tsLE (sortByTimestamp (decodedFor db u)) ∧
    (sortByTimestamp (decodedFor db u)).Perm (decodedFor db u) :=
  ⟨fetch_ok db u minP maxP hinit hre h0 h1 h2, rfl,
    windowSlice_length _ _ _ h0 h1 h2, windowSlice_sorted _ _ _,
    sortByTimestamp_sorted _, sortByTimestamp_perm _⟩

theorem fetch_returns_floor_window_witness :
    ReadLocationData dbWitness "u1" 0 1 =
      .ok (windowSlice (decodedFor dbWitness "u1") 0 1) ∧
    windowSlice (decodedFor dbWitness "u1") 0 1 =
      ((sortByTimestamp (decodedFor dbWitness "u1")).drop
          (⌊(0 : ℚ) * ((decodedFor dbWitness "u1").length : ℚ)⌋).toNat).take
        ((⌊(1 : ℚ) * ((decodedFor dbWitness "u1").length : ℚ)⌋).toNat -
          (⌊(0 : ℚ) * ((decodedFor dbWitness "u1").length : ℚ)⌋).toNat) ∧
    (windowSlice (decodedFor dbWitness "u1") 0 1).length =
      (⌊(1 : ℚ) * ((decodedFor dbWitness "u1").length : ℚ)⌋).toNat -
        (⌊(0 : ℚ) * ((decodedFor dbWitness "u1").length : ℚ)⌋).toNat ∧
    List.Sorted tsLE (windowSlice (decodedFor dbWitness "u1") 0 1) ∧
    List.Sorted tsLE (sortByTimestamp (decodedFor dbWitness "u1")) ∧
    (sortByTimestamp (decodedFor dbWitness "u1")).Perm
      (decodedFor dbWitness "u1") :=
  fetch_returns_floor_window dbWitness "u1" 0 1 rfl rfl (le_refl 0)
    zero_le_one (le_refl 1)

/-- Claim C6: Fetch fails with an error exactly when the store is
uninitialized or the underlying read itself errors; in those cases the error
is surfaced and no data is returned with it (`FetchOutcome.err` carries only
the message, mirroring `return nil, err`), and the operation performs no
retry. -/
theorem fetch_err_iff_store_unavailable (db : DBState) (u : String)
    (minP maxP : ℚ) :
    (∃ msg, ReadLocationData db u minP maxP = .err msg) ↔
      (db.initialized = false ∨ db.readError ≠ none) := by
  constructor
  · rintro ⟨msg, h⟩
    cases hinit : db.initialized with
    | false => exact Or.inl rfl
    | true =>
      cases hre : db.readError with
      | some e => exact Or.inr (by simp [hre])
      | none =>
        exfalso
        unfold ReadLocationData at h
        rw [hinit, hre] at h
        simp only [Bool.true_eq_false, if_false] at h
        split at h
        · simp at h
        · exact applyWindow_ne_err _ _ _ _ h
  · rintro (h | h)
    · exact ⟨"database not initialized", by simp [ReadLocationData, h]⟩
    · obtain ⟨e, he⟩ := Option.ne_none_iff_exists'.mp h
      cases hinit : db.initialized with
      | false => exact ⟨"database not initialized", by simp [ReadLocationData, hinit]⟩
      | true =>
        refine ⟨"failed to get data for user " ++ u ++ " from DB: " ++ e, ?_⟩
        unfold ReadLocationData
        rw [hinit, he]
        simp

lemma filterMap_decodeRaw_filter (l : List RawMsg) :
    (l.filter (fun r => (decodeRaw r).isSome)).filterMap decodeRaw =
      l.filterMap decodeRaw := by
  induction l with
  | nil => rfl
  | cons a t ih =>
    rw [List.filter_cons, List.filterMap_cons]
    cases a with
    | valid d => simpa [decodeRaw] using ih
    | corrupt s => simpa [decodeRaw] using ih

/-- Claim C7: every stored record is decoded independently; records that fail
to decode are skipped and the fetch still succeeds, returning exactly the
windowed slice over the records that did decode — removing the undecodable
records from the store does not change the outcome at all. -/
theorem fetch_tolerates_corrupt_records (db : DBState) (u : String)
    (minP maxP : ℚ)
    (hinit : db.initialized = true) (hre : db.readError = none)
    (h0 : 0 ≤ minP) (h1 : minP ≤ maxP) (h2 : maxP ≤ 1) :
    ReadLocationData db u minP maxP =
      .ok (windowSlice ((db.contents (GetTopicForUser u)).filterMap decodeRaw)
        minP maxP) ∧
    ReadLocationData db u minP maxP =
      ReadLocationData
        { db with contents := fun k =>
            if k = GetTopicForUser u then
              (db.contents k).filter (fun r => (decodeRaw r).isSome)
            else db.contents k } u minP maxP := by
  refine ⟨fetch_ok db u minP maxP hinit hre h0 h1 h2, ?_⟩
  have hsnd := fetch_ok
    { db with contents := fun k =>
        if k = GetTopicForUser u then
          (db.contents k).filter (fun r => (decodeRaw r).isSome)
        else db.contents k } u minP maxP hinit hre h0 h1 h2
  rw [fetch_ok db u minP maxP hinit hre h0 h1 h2, hsnd]
  have hdec : decodedFor
      { db with contents := fun k =>
          if k = GetTopicForUser u then
            (db.contents k).filter (fun r => (decodeRaw r).isSome)
          else db.contents k } u = decodedFor db u := by
    unfold decodedFor
    simp [filterMap_decodeRaw_filter]
  rw [hdec]

theorem fetch_tolerates_corrupt_records_witness :
    ReadLocationData dbMixed "u2" 0 1 =
      .ok (windowSlice ((dbMixed.contents (GetTopicForUser "u2")).filterMap
        decodeRaw) 0 1) ∧
    ReadLocationData dbMixed "u2" 0 1 =
      ReadLocationData
        { dbMixed with contents := fun k =>
            if k = GetTopicForUser "u2" then
              (dbMixed.contents k).filter (fun r => (decodeRaw r).isSome)
            else dbMixed.contents k } "u2" 0 1 :=
  fetch_tolerates_corrupt_records dbMixed "u2" 0 1 rfl rfl (le_refl 0)
    zero_le_one (le_refl 1)

/-- Claim C2 (refuted by this evaluation): the code clamps `minPercent` only
from below and `maxPercent` only from above, so for `minPercent = 1`,
`maxPercent = -1` on a store with one sample it computes
`startIndex = endIndex = -1` and the slice expression
`locationDataList[-1:-1]` panics — the windowing indices do not always
satisfy `0 ≤ startIndex ≤ endIndex ≤ n`, and the fetch crashes instead of
returning defensively clamped data. -/
theorem fetch_out_of_range_fraction_panics :
    ReadLocationData dbOne "u1" 1 (-1) = .sliceOutOfRange (-1) (-1) 1 := by
  have hstep : ReadLocationData dbOne "u1" 1 (-1) =
      applyWindow [⟨0, 0, 0⟩] 1 (-1) := rfl
  rw [hstep]
  unfold applyWindow
  have hm : ((-1 : ℚ) * ((1 : ℕ) : ℚ)) = ((-1 : ℤ) : ℚ) := by norm_num
  have hg : goTruncToInt ((-1 : ℚ) * ((1 : ℕ) : ℚ)) = -1 := by
    unfold goTruncToInt
    rw [hm, if_neg (by norm_num), Int.ceil_intCast]
  have hg2 : goTruncToInt (-1 : ℚ) = -1 := by
    unfold goTruncToInt
    rw [if_neg (by norm_num), show ((-1 : ℚ)) = (((-1 : ℤ)) : ℚ) by norm_num,
      Int.ceil_intCast]
  unfold sliceResult goSlice
  norm_num [hg, hg2]

/-- Claim C9: both the write path and the read path address the store under
exactly the key `"user." ++ E ++ ".location"`: the derivation is
deterministic, a successful write appends precisely at that key and changes
no other key, and the read outcome depends on the store only through that
key's contents. -/
theorem topic_key_write_read (E : String) (db db₂ : DBState)
    (marshal : LocationData → Option RawMsg) (putEntryOk : RawMsg → Bool)
    (pts : List LocationData)
    (hw : WriteLocationData db marshal putEntryOk E pts = .ok db₂) :
    GetTopicForUser E = "user." ++ E ++ ".location" ∧
    db₂.contents ("user." ++ E ++ ".location") =
      db.contents ("user." ++ E ++ ".location") ++
        ((pts.filterMap marshal).filter putEntryOk) ∧
    (∀ k, k ≠ "user." ++ E ++ ".location" → db₂.contents k = db.contents k) ∧
    (∀ (db₃ : DBState) (minP maxP : ℚ),
      db₃.initialized = db₂.initialized → db₃.readError = db₂.readError →
      db₃.contents ("user." ++ E ++ ".location") =
        db₂.contents ("user." ++ E ++ ".location") →
      ReadLocationData db₃ E minP maxP = ReadLocationData db₂ E minP maxP) := by
  cases hinit : db.initialized with
  | false =>
    unfold WriteLocationData at hw
    rw [hinit] at hw
    simp at hw
  | true =>
    unfold WriteLocationData at hw
    rw [hinit] at hw
    simp only [Bool.true_eq_false, if_false, Except.ok.injEq] at hw
    subst hw
    refine ⟨rfl, by simp [GetTopicForUser], fun k hk => by simp [GetTopicForUser, hk], ?_⟩
    intro db₃ minP maxP hi hr hc
    have hc' : db₃.contents (GetTopicForUser E) =
        ({ db with contents := fun k =>
            if k = GetTopicForUser E then
              db.contents k ++ ((pts.filterMap marshal).filter putEntryOk)
            else db.contents k } : DBState).contents (GetTopicForUser E) := hc
    unfold ReadLocationData
    rw [hi, hr, hc']

theorem topic_key_write_read_witness :
    GetTopicForUser "u1" = "user." ++ "u1" ++ ".location" :=
  (topic_key_write_read "u1" dbWitness dbWitnessWritten marshalJSON putAlways
    [⟨9, 9, 2⟩] rfl).1

/-- Claim C10: when the database is initialized, `WriteLocationData` reports
success no matter how many samples fail to marshal or to be put into the
batch — the failing records are silently dropped, so when every record is
dropped the store is unchanged yet the caller still sees success. -/
theorem write_reports_success (db : DBState)
    (marshal : LocationData → Option RawMsg) (putEntryOk : RawMsg → Bool)
    (u : String) (pts : List LocationData)
    (hinit : db.initialized = true) :
    ∃ db₂, WriteLocationData db marshal putEntryOk u pts = .ok db₂ ∧
      (∀ k, db₂.contents k =
        if k = GetTopicForUser u then
          db.contents k ++ ((pts.filterMap marshal).filter putEntryOk)
        else db.contents k) ∧
      ((pts.filterMap marshal).filter putEntryOk = [] →
        ∀ k, db₂.contents k = db.contents k) ∧
      db₂.initialized = db.initialized ∧ db₂.readError = db.readError := by
  refine ⟨{ db with contents := fun k => if k = GetTopicForUser u then db.contents k ++ ((pts.filterMap marshal).filter putEntryOk) else db.contents k }, ?_, fun k => rfl, ?_, rfl, rfl⟩
  · unfold WriteLocationData
    rw [hinit]
    simp
  · intro hnil k
    by_cases hk : k = GetTopicForUser u <;> simp [hk, hnil]

theorem write_reports_success_witness :
    ∃ db₂, WriteLocationData dbWitness (fun _ => none) putAlways "u1"
        [⟨1, 2, 3⟩] = .ok db₂ ∧
      (∀ k, db₂.contents k =
        if k = GetTopicForUser "u1" then
          dbWitness.contents k ++
            ((([⟨1, 2, 3⟩] : List LocationData).filterMap
              (fun _ => none)).filter putAlways)
        else dbWitness.contents k) ∧
      ((([⟨1, 2, 3⟩] : List LocationData).filterMap
          (fun _ => none)).filter putAlways = [] →
        ∀ k, db₂.contents k = dbWitness.contents k) ∧
      db₂.initialized = dbWitness.initialized ∧
      db₂.readError = dbWitness.readError :=
  write_reports_success dbWitness (fun _ => none) putAlways "u1" [⟨1, 2, 3⟩] rfl

/-- Claim C8: every generated sample comes from one random angle in
`[0, 2π)` and one random magnitude in `[0, maxDistancePerStep]` as
`deltaX = magnitude·cos(angle)`, `deltaY = magnitude·sin(angle)`, and is
stamped with the current time and appended to the buffer. -/
theorem generated_sample_polar (u1 u2 : ℝ) (now : ℤ) (buf : List GenSample)
    (h1 : 0 ≤ u1) (h2 : u1 < 1) (h3 : 0 ≤ u2) (h4 : u2 < 1) :
    ∃ angle magnitude : ℝ,
      0 ≤ angle ∧ angle < 2 * Real.pi ∧
      0 ≤ magnitude ∧ magnitude ≤ maxDistancePerStep ∧
      generateMovement u1 u2 =
        (magnitude * Real.cos angle, magnitude * Real.sin angle) ∧
      generateStep now u1 u2 buf =
        buf ++ [{ deltaX := magnitude * Real.cos angle,
                  deltaY := magnitude * Real.sin angle, timestamp := now }] := by
  refine ⟨u1 * 2 * Real.pi, u2 * maxDistancePerStep, ?_, ?_, ?_, ?_, rfl, rfl⟩
  · exact mul_nonneg (mul_nonneg h1 (by norm_num)) Real.pi_pos.le
  · have h2' : u1 * 2 < 2 := by linarith
    exact mul_lt_mul_of_pos_right h2' Real.pi_pos
  · exact mul_nonneg h3 (by norm_num [maxDistancePerStep])
  · exact mul_le_of_le_one_left (by norm_num [maxDistancePerStep]) h4.le

theorem generated_sample_polar_witness :
    ∃ angle magnitude : ℝ,
      0 ≤ angle ∧ angle < 2 * Real.pi ∧
      0 ≤ magnitude ∧ magnitude ≤ maxDistancePerStep ∧
      generateMovement 0 0 =
        (magnitude * Real.cos angle, magnitude * Real.sin angle) ∧
      generateStep 5 0 0 [] =
        [] ++ [{ deltaX := magnitude * Real.cos angle,
                 deltaY := magnitude * Real.sin angle, timestamp := 5 }] :=
  generated_sample_polar 0 0 5 [] (le_refl 0) (by norm_num) (le_refl 0)
    (by norm_num)

lemma stop_of_empty (s : SimState) (h : s.table = []) :
    stopSimulationsInternal s = s := by
  unfold stopSimulationsInternal
  rw [if_pos (by simp [h])]

lemma stop_table (s : SimState) : (stopSimulationsInternal s).table = [] := by
  unfold stopSimulationsInternal
  split
  · next h => exact List.isEmpty_iff.mp h
  · rfl

lemma stop_idem (s : SimState) :
    stopSimulationsInternal (stopSimulationsInternal s) =
      stopSimulationsInternal s :=
  stop_of_empty _ (stop_table s)

lemma stop_cancels_table (s : SimState) :
    ∀ e ∈ s.table, e.2 ∈ (stopSimulationsInternal s).cancelled := by
  intro e he
  unfold stopSimulationsInternal
  split
  · next h => simp [List.isEmpty_iff.mp h] at he
  · exact List.mem_append_right _ (List.mem_map_of_mem Prod.snd he)

lemma liveOf_stop_nil (s : SimState) (h : Inv s) :
    liveOf (stopSimulationsInternal s) = [] := by
  obtain ⟨hg, ht, hc, hnd, hperm⟩ := h
  unfold stopSimulationsInternal
  split
  · next he =>
    rw [List.isEmpty_iff.mp he] at hperm
    simpa using hperm.eq_nil
  · unfold liveOf
    rw [List.filter_eq_nil_iff]
    intro g hg'
    simp only [decide_eq_true_eq, List.mem_append, not_not]
    by_cases hgc : g.1 ∈ s.cancelled
    · exact Or.inl hgc
    · have hmem : g ∈ liveOf s :=
        List.mem_filter.mpr ⟨hg', by simpa using hgc⟩
      obtain ⟨e, he, heq⟩ := List.mem_map.mp (hperm.subset hmem)
      have : g.1 ∈ s.table.map Prod.snd :=
        List.mem_map.mpr ⟨e, he, by rw [← heq]⟩
      exact Or.inr this

lemma stop_inv (s : SimState) (h : Inv s) :
    Inv (stopSimulationsInternal s) := by
  have hnil := liveOf_stop_nil s h
  have htab := stop_table s
  obtain ⟨hg, ht, hc, hnd, hperm⟩ := h
  refine ⟨?_, ?_, ?_, ?_, ?_⟩
  · unfold stopSimulationsInternal
    split
    · exact hg
    · exact hg
  · rw [htab]
    simp
  · unfold stopSimulationsInternal
    split
    · exact hc
    · intro c hc'
      rcases List.mem_append.mp hc' with h1 | h1
      · exact hc c h1
      · obtain ⟨e, he, rfl⟩ := List.mem_map.mp h1
        exact ht e he
  · rw [htab]
    simp
  · rw [hnil, htab]
    simp

lemma mapInsert_of_not_mem (m : List (String × ℕ)) (k : String) (v : ℕ)
    (h : ∀ e ∈ m, e.1 ≠ k) : mapInsert m k v = m ++ [(k, v)] := by
  unfold mapInsert
  rw [if_neg]
  simp only [List.any_eq_true, decide_eq_true_eq, not_exists]
  exact fun e hp => h e hp.1 hp.2

lemma foldl_spawnOne_inv : ∀ (ids : List String) (st : SimState),
    Inv st →
    (ids.filter (fun u => u ≠ "")).Nodup →
    (∀ u ∈ ids, u ≠ "" → ∀ e ∈ st.table, e.1 ≠ u) →
    Inv (ids.foldl spawnOne st) := by
  intro ids
  induction ids with
  | nil =>
    intro st h _ _
    exact h
  | cons uid rest ih =>
    intro st hInv hnd hdisj
    rw [List.foldl_cons]
    by_cases hu : uid = ""
    · have hskip : spawnOne st uid = st := by
        unfold spawnOne
        rw [if_pos hu]
      rw [hskip]
      refine ih st hInv ?_ ?_
      · have hfc : (uid :: rest).filter (fun u => u ≠ "") =
            rest.filter (fun u => u ≠ "") := by
          rw [List.filter_cons]
          simp [hu]
        exact hfc ▸ hnd
      · exact fun u hu' => hdisj u (List.mem_cons_of_mem _ hu')
    · obtain ⟨hg, ht, hc, hnd', hperm⟩ := hInv
      have hkey : ∀ e ∈ st.table, e.1 ≠ uid :=
        fun e he => hdisj uid (List.mem_cons_self _ _) hu e he
      have htab : (spawnOne st uid).table = st.table ++ [(uid, st.nextId)] := by
        unfold spawnOne
        rw [if_neg hu]
        exact mapInsert_of_not_mem _ _ _ hkey
      have hgens : (spawnOne st uid).gens = st.gens ++ [(st.nextId, uid)] := by
        unfold spawnOne
        rw [if_neg hu]
      have hcanc : (spawnOne st uid).cancelled = st.cancelled := by
        unfold spawnOne
        rw [if_neg hu]
      have hnext : (spawnOne st uid).nextId = st.nextId + 1 := by
        unfold spawnOne
        rw [if_neg hu]
      have hfc : (uid :: rest).filter (fun u => u ≠ "") =
          uid :: rest.filter (fun u => u ≠ "") := by
        rw [List.filter_cons]
        simp [hu]
      rw [hfc] at hnd
      have huid_not : uid ∉ rest.filter (fun u => u ≠ "") :=
        (List.nodup_cons.mp hnd).1
      have hnd_rest : (rest.filter (fun u => u ≠ "")).Nodup :=
        (List.nodup_cons.mp hnd).2
      refine ih (spawnOne st uid) ⟨?_, ?_, ?_, ?_, ?_⟩ hnd_rest ?_
      · rw [hgens, hnext]
        intro g hg'
        rcases List.mem_append.mp hg' with h1 | h1
        · exact Nat.lt_succ_of_lt (hg g h1)
        · simp only [List.mem_singleton] at h1
          rw [h1]
          exact Nat.lt_succ_self _
      · rw [htab, hnext]
        intro e he
        rcases List.mem_append.mp he with h1 | h1
        · exact Nat.lt_succ_of_lt (ht e h1)
        · simp only [List.mem_singleton] at h1
          rw [h1]
          exact Nat.lt_succ_self _
      · rw [hcanc, hnext]
        exact fun c hc' => Nat.lt_succ_of_lt (hc c hc')
      · rw [htab, List.map_append, List.nodup_append]
        refine ⟨hnd', by simp, ?_⟩
        intro a ha hb
        simp only [List.map_cons, List.map_nil, List.mem_singleton] at hb
        obtain ⟨e, he, rfl⟩ := List.mem_map.mp ha
        exact hkey e he hb
      · have hlive : liveOf (spawnOne st uid) =
            liveOf st ++ [(st.nextId, uid)] := by
          unfold liveOf
          rw [hgens, hcanc, List.filter_append]
          congr 1
          have hfresh : st.nextId ∉ st.cancelled :=
            fun hmem => absurd (hc _ hmem) (lt_irrefl _)
          simp [hfresh]
        rw [hlive, htab, List.map_append]
        simpa using hperm.append_right [(st.nextId, uid)]
      · intro u hu' hne e he
        rw [htab] at he
        rcases List.mem_append.mp he with h1 | h1
        · exact hdisj u (List.mem_cons_of_mem _ hu') hne e h1
        · simp only [List.mem_singleton] at h1
          rw [h1]
          intro heq'
          have huu : uid = u := heq'
          apply huid_not
          rw [huu]
          exact List.mem_filter.mpr ⟨hu', by simp [hne]⟩

lemma foldl_spawnOne_all_empty : ∀ (ids : List String) (st : SimState),
    (∀ u ∈ ids, u = "") → ids.foldl spawnOne st = st := by
  intro ids
  induction ids with
  | nil => intro st _; rfl
  | cons a t ih =>
    intro st hall
    rw [List.foldl_cons]
    have hskip : spawnOne st a = st := by
      unfold spawnOne
      rw [if_pos (hall a (List.mem_cons_self _ _))]
    rw [hskip]
    exact ih st (fun u hu => hall u (List.mem_cons_of_mem _ hu))

/-- Claim C3 (amended to duplicate-free id lists): starting from a state
satisfying the lockstep invariant, after a successful `Start` on a list whose
non-empty ids are pairwise distinct, and after any `Stop`, every entity id
with a live generator has exactly one handle in the table and the table and
the running generators stay in lockstep; `Stop` cancels and removes every
live generator. -/
theorem session_table_generator_lockstep (s s' : SimState) (ids : List String)
    (hInv : Inv s) (hnd : (ids.filter (fun u => u ≠ "")).Nodup)
    (hok : handleStart s ids = .ok s') :
    Inv s' ∧
    Inv (stopSimulationsInternal s) ∧
    liveOf (stopSimulationsInternal s) = [] ∧
    (stopSimulationsInternal s).table = [] ∧
    Inv (stopSimulationsInternal s') ∧
    liveOf (stopSimulationsInternal s') = [] ∧
    (stopSimulationsInternal s').table = [] := by
  have hInv' : Inv s' := by
    unfold handleStart at hok
    by_cases hids : ids.isEmpty
    · rw [if_pos hids] at hok
      exact absurd hok (by simp)
    · rw [if_neg hids] at hok
      simp only [Except.ok.injEq] at hok
      rw [← hok]
      have hbase : Inv { stopSimulationsInternal s with currentUsers := ids } :=
        stop_inv s hInv
      have htab : ({ stopSimulationsInternal s with
          currentUsers := ids } : SimState).table = [] := stop_table s
      refine foldl_spawnOne_inv ids _ hbase hnd ?_
      intro u _ _ e he
      rw [htab] at he
      simp at he
  exact ⟨hInv', stop_inv s hInv, liveOf_stop_nil s hInv, stop_table s,
    stop_inv s' hInv', liveOf_stop_nil s' hInv', stop_table s'⟩

theorem session_table_generator_lockstep_witness :
    Inv ⟨[("a", 0), ("b", 1)], [(0, "a"), (1, "b")], [], 2, ["a", "b"]⟩ ∧
    Inv (stopSimulationsInternal initState) ∧
    liveOf (stopSimulationsInternal initState) = [] ∧
    (stopSimulationsInternal initState).table = [] ∧
    Inv (stopSimulationsInternal
      ⟨[("a", 0), ("b", 1)], [(0, "a"), (1, "b")], [], 2, ["a", "b"]⟩) ∧
    liveOf (stopSimulationsInternal
      ⟨[("a", 0), ("b", 1)], [(0, "a"), (1, "b")], [], 2, ["a", "b"]⟩) = [] ∧
    (stopSimulationsInternal
      ⟨[("a", 0), ("b", 1)], [(0, "a"), (1, "b")], [], 2, ["a", "b"]⟩).table =
      [] :=
  session_table_generator_lockstep initState
    ⟨[("a", 0), ("b", 1)], [(0, "a"), (1, "b")], [], 2, ["a", "b"]⟩
    ["a", "b"] (by decide) (by decide) rfl

/-- Claim C3, counterexample to the claim as stated: for the duplicate id
list `["a", "a"]`, `Start` spawns two generator goroutines but records only
one handle (the second map assignment overwrites the first cancel function),
so the table and the running generators are not in lockstep, and after
`Stop` the first goroutine's context was never cancelled — one spawned
generator is not cancellable through any table entry. -/
theorem session_lockstep_duplicate_ids_cex :
    handleStart initState ["a", "a"] =
      .ok ⟨[("a", 1)], [(0, "a"), (1, "a")], [], 2, ["a", "a"]⟩ ∧
    (⟨[("a", 1)], [(0, "a"), (1, "a")], [], 2, ["a", "a"]⟩ : SimState).gens.length = 2 ∧
    (⟨[("a", 1)], [(0, "a"), (1, "a")], [], 2, ["a", "a"]⟩ : SimState).table.length = 1 ∧
    ¬ Inv ⟨[("a", 1)], [(0, "a"), (1, "a")], [], 2, ["a", "a"]⟩ ∧
    liveOf (stopSimulationsInternal
      ⟨[("a", 1)], [(0, "a"), (1, "a")], [], 2, ["a", "a"]⟩) = [(0, "a")] :=
  ⟨rfl, by decide, by decide, by decide, by decide⟩

/-- Claim C4 (amended): `Start` skips empty-string entity ids, but its
validation checks the raw `user_ids` list *before* filtering: it fails with
the validation error exactly when the raw list is empty, and for a non-empty
list containing only empty-string ids it succeeds while spawning zero
generators (a silent zero-task no-op). -/
theorem start_error_iff_empty_input (s : SimState) (ids : List String) :
    (handleStart s ids).isOk = !ids.isEmpty ∧
    (ids = [] → handleStart s ids = .error ("User ID list cannot be empty")) ∧
    ((∀ u ∈ ids, u = "") → ids ≠ [] →
      handleStart s ids =
        .ok { stopSimulationsInternal s with currentUsers := ids }) := by
  refine ⟨?_, ?_, ?_⟩
  · unfold handleStart
    by_cases h : ids.isEmpty <;> simp [h, Except.isOk, Except.toBool]
  · intro h
    unfold handleStart
    rw [if_pos (by simp [h])]
  · intro hall hne
    unfold handleStart
    rw [if_neg (by simp [List.isEmpty_iff, hne])]
    rw [foldl_spawnOne_all_empty ids _ hall]

theorem start_error_iff_empty_input_witness :
    handleStart initState ["", ""] =
      .ok { stopSimulationsInternal initState with currentUsers := ["", ""] } :=
  (start_error_iff_empty_input initState ["", ""]).2.2 (by decide) (by decide)

/-- Claim C4, counterexample to the claim as stated: an input list containing
only empty-string ids is *not* rejected — `Start` succeeds with an empty
table and no spawned generator, i.e. a silent zero-task no-op. -/
theorem start_all_empty_ids_succeeds_cex :
    handleStart initState [""] = .ok ⟨[], [], [], 0, [""]⟩ ∧
    (⟨[], [], [], 0, [""]⟩ : SimState).table = [] ∧
    (⟨[], [], [], 0, [""]⟩ : SimState).gens = [] :=
  ⟨rfl, rfl, rfl⟩

/-- Claim C5: `Stop` is idempotent and total — with no active session it
changes no state and still succeeds, a second `Stop` has no further effect,
and every `Stop` leaves the entity table empty with every registered
generator's cancellation signalled; `handleStop` always answers success. -/
theorem stop_idempotent_total (s : SimState) :
    (s.table = [] → stopSimulationsInternal s = s) ∧
    stopSimulationsInternal (stopSimulationsInternal s) =
      stopSimulationsInternal s ∧
    (stopSimulationsInternal s).table = [] ∧
    (∀ e ∈ s.table, e.2 ∈ (stopSimulationsInternal s).cancelled) ∧
    handleStop s = (stopSimulationsInternal s, true) :=
  ⟨stop_of_empty s, stop_idem s, stop_table s, stop_cancels_table s, rfl⟩

theorem stop_idempotent_total_witness :
    stopSimulationsInternal initState = initState :=
  (stop_idempotent_total initState).1 rfl

end UserActivitySim
